import Mathlib

/-!
Verification of the PetCareApp simulation core.

This file gives a shallow embedding of the pet life-cycle logic of the
repository: the day-advance decay/health engine, the economy (care-action
pricing, insurance, tricks, toys, mini-game rewards), the evolution state
machine (`src/pages/PetCare.jsx`, `src/components/pet/CareActions.jsx`) and
the adoption flow (`PetAdopt.jsx`).

Modelling conventions: JavaScript numbers are modelled as rationals (`ℚ`);
`Math.random()` draws are explicit parameters constrained to `[0,1)`;
`Math.floor`/`Math.ceil` are `Int.floor`/`Int.ceil`; the partial `updates`
object written by the day-advance is modelled with `Option` for the fields
that are only conditionally written (health); entity-store side effects
(`Expense.create`, notifications) are modelled as explicit output lists.
-/

namespace PetCareApp

/-- The Pet entity record (fields as created in `PetAdopt.jsx` and mutated in
`PetCare.jsx`).  The `last_fed` timestamp only drives the wall-clock scheduler
and is omitted: day-advances are modelled as explicit transitions. -/
structure Pet where
  id : ℕ
  name : String
  species : String
  stage : String
  hunger : ℚ
  happiness : ℚ
  energy : ℚ
  hygiene : ℚ
  health : ℚ
  experience : ℚ
  coins : ℚ
  has_insurance : Bool
  days_alive : ℚ
  achievements : List String
  tricks : List String
  toys : List String
  color_variant : String
  deriving DecidableEq

/-- The Expense ledger entity: `{pet_id, type, amount, description}`. -/
structure Expense where
  pet_id : ℕ
  type : String
  amount : ℚ
  description : String
  deriving DecidableEq

/-- The `Math.random()` draws consumed by one `progressDay` call: one each for
the hunger/hygiene/energy decay rolls and one for the health-decay roll
(only one health branch executes, so one draw suffices). -/
structure Draws where
  rHunger : ℚ
  rHygiene : ℚ
  rEnergy : ℚ
  rHealth : ℚ
  deriving DecidableEq

/-- Each `Math.random()` result lies in `[0,1)`. -/
def ValidDraws (d : Draws) : Prop :=
  (0 ≤ d.rHunger ∧ d.rHunger < 1) ∧ (0 ≤ d.rHygiene ∧ d.rHygiene < 1) ∧
    (0 ≤ d.rEnergy ∧ d.rEnergy < 1) ∧ (0 ≤ d.rHealth ∧ d.rHealth < 1)

instance (d : Draws) : Decidable (ValidDraws d) := by
  unfold ValidDraws; infer_instance

/-- Function `getCostMultiplier` of PetCare.jsx:
`1 + Math.floor(days_alive / 5) * 0.2` (20% increase every 5 days). -/
def getCostMultiplier (p : Pet) : ℚ := 1 + (⌊p.days_alive / 5⌋ : ℚ) * (1 / 5)

/-- Function `getInsuranceCost` of PetCare.jsx:
`0.5 + Math.floor(days_alive / 5) * 0.5`. -/
def getInsuranceCost (p : Pet) : ℚ := 1 / 2 + (⌊p.days_alive / 5⌋ : ℚ) * (1 / 2)

/-- Age multiplier of the decay system in `progressDay`:
`1 + Math.floor(days_alive / 15) * 0.1`. -/
def ageMultiplier (p : Pet) : ℚ := 1 + (⌊p.days_alive / 15⌋ : ℚ) * (1 / 10)

/-- Translation of `list.filter(s => s < t).length` used for the stat counts. -/
def countBelow (t : ℚ) (l : List ℚ) : ℕ :=
  (l.filter (fun s => decide (s < t))).length

/-- The four need stats in source order: `[hunger, happiness, hygiene, energy]`. -/
def needStats (p : Pet) : List ℚ := [p.hunger, p.happiness, p.hygiene, p.energy]

/-- Count `criticalStats` of `progressDay`: need stats strictly below 25,
computed on the values the pet had before this day's decay. -/
def criticalCount (p : Pet) : ℕ := countBelow 25 (needStats p)

/-- Count `lowStats` of `progressDay`: need stats strictly below 50, computed
on the values the pet had before this day's decay. -/
def lowCount (p : Pet) : ℕ := countBelow 50 (needStats p)

/-- The health branch of `progressDay` (PetCare.jsx lines 186-202), as a
function of the two pre-decay counts, the current health and the random draw:
`some h` when `updates.health` is assigned value `h`, `none` when the
`updates` object carries no health field. -/
def healthDelta (crit low : ℕ) (health r : ℚ) : Option ℚ :=
  if 2 ≤ crit then some (max 0 (health - (8 + r * 7)))
  else if 3 ≤ low then some (max 0 (health - (3 + r * 4)))
  else if low = 0 ∧ health < 100 then some (min 100 (health + 5))
  else none

/-- Value of `updates.health` after the decay branches, before the insurance
clamp. -/
def healthComputed (p : Pet) (d : Draws) : Option ℚ :=
  healthDelta (criticalCount p) (lowCount p) p.health d.rHealth

/-- Value of `updates.health` after the insurance clamp
(`if (pet.has_insurance && updates.health < 20) updates.health = 20`); note
that an absent `updates.health` (`undefined < 20` is false in JS) stays
absent. -/
def healthWritten (p : Pet) (d : Draws) : Option ℚ :=
  match healthComputed p d with
  | some h => if p.has_insurance = true ∧ h < 20 then some 20 else some h
  | none => none

/-- Whether the "saved by insurance" notification fires during `progressDay`. -/
def insuranceSaved (p : Pet) (d : Draws) : Bool :=
  match healthComputed p d with
  | some h => p.has_insurance && decide (h < 20)
  | none => false

/-- Result of one day-advance: the updated pet record, the Expense records
created, and the notification messages emitted. -/
structure DayResult where
  pet : Pet
  expenses : List Expense
  notices : List String

/-- Function `progressDay` of PetCare.jsx (lines 164-226): one day-advance.
Increments `days_alive` and `experience`, applies the randomized decay to
hunger/hygiene/energy and a flat 3 to happiness (all floored at 0), applies
the health branch computed from the pre-decay stat counts, applies the
insurance clamp, and bills the daily insurance cost (floored at 0) with an
Expense record when insured. -/
def progressDay (p : Pet) (d : Draws) : DayResult :=
  let mult := ageMultiplier p
  let hungerDecay := (5 + d.rHunger * 8) * mult
  let hygieneDecay := (4 + d.rHygiene * 6) * mult
  let energyDecay := (3 + d.rEnergy * 4) * mult
  let insCost := getInsuranceCost p
  { pet :=
      { p with
        days_alive := p.days_alive + 1
        experience := p.experience + 1
        hunger := max 0 (p.hunger - hungerDecay)
        hygiene := max 0 (p.hygiene - hygieneDecay)
        energy := max 0 (p.energy - energyDecay)
        happiness := max 0 (p.happiness - 3)
        health := (healthWritten p d).getD p.health
        coins := if p.has_insurance then max 0 (p.coins - insCost) else p.coins }
    expenses :=
      if p.has_insurance then
        [{ pet_id := p.id, type := "insurance", amount := insCost,
           description := "Daily insurance payment" }]
      else []
    notices :=
      if insuranceSaved p d then
        ["🛡️ Insurance saved your pet from critical health!"]
      else [] }

/-- The five care actions of CareActions.jsx. -/
inductive CareAction where
  | feed | play | rest | clean | health
  deriving DecidableEq

/-- Action identifier strings, used as the Expense `type`. -/
def actionName : CareAction → String
  | .feed => "feed"
  | .play => "play"
  | .rest => "rest"
  | .clean => "clean"
  | .health => "health"

/-- Base costs of the `actions` array in CareActions.jsx. -/
def baseCost : CareAction → ℚ
  | .feed => 10
  | .play => 5
  | .rest => 0
  | .clean => 7
  | .health => 15

/-- Expense descriptions of `handleCareAction`. -/
def actionDesc : CareAction → String
  | .feed => "Fed pet"
  | .play => "Played with pet"
  | .rest => "Pet rest time"
  | .clean => "Cleaned pet"
  | .health => "Health checkup"

/-- Stat deltas of the `switch` in `handleCareAction` (PetCare.jsx 324-358). -/
def applyCare (p : Pet) : CareAction → Pet
  | .feed => { p with hunger := min 100 (p.hunger + 30), energy := min 100 (p.energy + 10) }
  | .play => { p with happiness := min 100 (p.happiness + 25), energy := max 0 (p.energy - 10) }
  | .rest => { p with energy := min 100 (p.energy + 40), happiness := min 100 (p.happiness + 5) }
  | .clean => { p with hygiene := min 100 (p.hygiene + 35), happiness := min 100 (p.happiness + 5) }
  | .health => { p with health := min 100 (p.health + 30) }

/-- Function `handleCareAction` of PetCare.jsx (lines 313-373).  The charge is
`baseCost * getCostMultiplier(pet)` with no rounding; the action is dropped
when `coins < cost`; `feed` additionally unlocks the `first_feed` achievement;
an Expense tagged with the action name is created exactly when the cost is
nonzero. -/
def handleCareAction (p : Pet) (a : CareAction) : Pet × List Expense :=
  let cost := baseCost a * getCostMultiplier p
  if p.coins < cost then (p, [])
  else
    let newAch :=
      if a = CareAction.feed ∧ ¬(p.achievements.contains "first_feed" = true)
      then p.achievements ++ ["first_feed"] else p.achievements
    let q := applyCare p a
    ({ q with coins := p.coins - cost, achievements := newAch },
     if 0 < cost then
       [{ pet_id := p.id, type := actionName a, amount := cost,
          description := actionDesc a }]
     else [])

/-- Displayed price of a care action in CareActions.jsx:
`Math.ceil(action.cost * costMultiplier)`; the button is disabled unless
`coins >= actualCost`. -/
def displayCost (p : Pet) (a : CareAction) : ℤ :=
  ⌈baseCost a * getCostMultiplier p⌉

/-- End-to-end care action flow: the CareActions.jsx button is disabled when
`coins < Math.ceil(cost * multiplier)`; a click runs `handleCareAction`. -/
def attemptCareAction (p : Pet) (a : CareAction) : Pet × List Expense :=
  if p.coins < (displayCost p a : ℚ) then (p, [])
  else handleCareAction p a

/-- A purchasable trick of the Tricks modal (PetCare.jsx lines 1416-1421):
identifier and flat cost. -/
structure TrickItem where
  id : String
  cost : ℚ
  deriving DecidableEq

/-- Trick `Roll Over`, cost 20. -/
def trickRoll : TrickItem := { id := "roll", cost := 20 }

/-- Trick `Play Dead`, cost 30. -/
def trickDead : TrickItem := { id := "dead", cost := 30 }

/-- Trick `Dance`, cost 50. -/
def trickDance : TrickItem := { id := "dance", cost := 50 }

/-- Trick `Fireball`, cost 100. -/
def trickFireball : TrickItem := { id := "fireball", cost := 100 }

/-- The trick catalog of the Tricks modal. -/
def trickCatalog : List TrickItem := [trickRoll, trickDead, trickDance, trickFireball]

/-- Trick purchase (PetCare.jsx lines 1427-1449): the buy button is rendered
only when the trick is not yet owned, is disabled when `coins < cost`, and on
click deducts the cost and appends the trick id.  No Expense record is
created on this path. -/
def buyTrick (p : Pet) (t : TrickItem) : Pet × List Expense :=
  if p.tricks.contains t.id = true then (p, [])
  else if p.coins < t.cost then (p, [])
  else ({ p with coins := p.coins - t.cost, tricks := p.tricks ++ [t.id] }, [])

/-- Performing an owned trick (PetCare.jsx lines 1388-1401): requires
`energy >= 10`; costs 10 energy, grants +15 happiness (capped) and +1
experience. -/
def performOwnedTrick (p : Pet) : Pet :=
  if 10 ≤ p.energy then
    { p with
      happiness := min 100 (p.happiness + 15)
      energy := max 0 (p.energy - 10)
      experience := p.experience + 1 }
  else p

/-- A toy of the Toy Shop modal (PetCare.jsx lines 1486-1490): display name,
the identifier tested by the `owned` check, flat cost and one-time happiness
boost. -/
structure ToyItem where
  name : String
  ownedId : String
  cost : ℚ
  happyBoost : ℚ
  deriving DecidableEq

/-- Toy `Ball`: owned check id `ball`, cost 10, +5 happiness. -/
def toyBall : ToyItem := { name := "Ball", ownedId := "ball", cost := 10, happyBoost := 5 }

/-- Toy `Squeaky Toy`: owned check id `squeaky`, cost 20, +10 happiness. -/
def toySqueaky : ToyItem :=
  { name := "Squeaky Toy", ownedId := "squeaky", cost := 20, happyBoost := 10 }

/-- Toy `Magic Wand`: owned check id `wand`, cost 40, +15 happiness. -/
def toyWand : ToyItem :=
  { name := "Magic Wand", ownedId := "wand", cost := 40, happyBoost := 15 }

/-- Toy `Golden Crown`: owned check id `crown`, cost 100, +25 happiness. -/
def toyCrown : ToyItem :=
  { name := "Golden Crown", ownedId := "crown", cost := 100, happyBoost := 25 }

/-- The toy catalog of the Toy Shop modal. -/
def toyCatalog : List ToyItem := [toyBall, toySqueaky, toyWand, toyCrown]

/-- JS `toLowerCase` on an ASCII character (code points 65-90 shifted). -/
def lowerChar (c : Char) : Char :=
  if 65 ≤ c.toNat ∧ c.toNat ≤ 90 then Char.ofNat (c.toNat + 32) else c

/-- JS `replace(' ', '')`: removes only the first space (code point 32). -/
def removeFirstSpace : List Char → List Char
  | [] => []
  | c :: cs => if c.toNat = 32 then cs else c :: removeFirstSpace cs

/-- The identifier stored into `toys` on purchase:
`toy.name.toLowerCase().replace(' ', '')`. -/
def toyStoreId (t : ToyItem) : String :=
  String.mk (removeFirstSpace (t.name.data.map lowerChar))

/-- Toy purchase (PetCare.jsx lines 1500-1518): the buy button is rendered
only when `pet.toys` does not contain `toy.ownedId`, is disabled when
`coins < cost`, and on click deducts the cost, appends
`toy.name.toLowerCase().replace(' ', '')` to `toys` and applies the happiness
boost.  No Expense record is created on this path. -/
def buyToy (p : Pet) (t : ToyItem) : Pet × List Expense :=
  if p.toys.contains t.ownedId = true then (p, [])
  else if p.coins < t.cost then (p, [])
  else
    ({ p with
        coins := p.coins - t.cost
        toys := p.toys ++ [toyStoreId t]
        happiness := min 100 (p.happiness + t.happyBoost) }, [])

/-- Function `handleBuyInsurance` of PetCare.jsx: flat 15-coin activation fee,
rejected when `coins < 15`; sets `has_insurance`, unlocks the `insured`
achievement and records one `insurance` Expense. -/
def handleBuyInsurance (p : Pet) : Pet × List Expense :=
  if p.coins < 15 then (p, [])
  else
    ({ p with
        has_insurance := true
        coins := p.coins - 15
        achievements := p.achievements ++ ["insured"] },
     [{ pet_id := p.id, type := "insurance", amount := 15,
        description := "Insurance activation fee" }])

/-- Function `handleGameComplete` of PetCare.jsx: adds the mini-game reward to
`coins` and unlocks the `wealthy` achievement at 200 coins. -/
def handleGameComplete (p : Pet) (reward : ℚ) : Pet :=
  let newCoins := p.coins + reward
  let newAch :=
    if 200 ≤ newCoins ∧ ¬(p.achievements.contains "wealthy" = true)
    then p.achievements ++ ["wealthy"] else p.achievements
  { p with coins := newCoins, achievements := newAch }

/-- The evolution useEffect of PetCare.jsx (lines 263-306): egg to hatchling
at 3 experience (experience reset, `hatchling` achievement); hatchling to
grown at 5 experience (experience kept, `fully_grown` achievement); no other
transition. -/
def evolutionCheck (p : Pet) : Pet :=
  if p.stage = "egg" ∧ 3 ≤ p.experience then
    { p with
      stage := "hatchling"
      experience := 0
      achievements := p.achievements ++ ["hatchling"] }
  else if p.stage = "hatchling" ∧ 5 ≤ p.experience then
    { p with
      stage := "grown"
      achievements := p.achievements ++ ["fully_grown"] }
  else p

/-- One full simulated day as experienced in the app: the `progressDay`
mutation followed by the evolution check on the updated record. -/
def dayStep (p : Pet) (d : Draws) : Pet :=
  evolutionCheck (progressDay p d).pet

/-- A user-facing operation on the pet, for invariant statements. -/
inductive Op where
  | dayAdvance (d : Draws)
  | care (a : CareAction)
  | buyTrick (t : TrickItem)
  | performTrick
  | buyToy (t : ToyItem)
  | buyInsurance
  | gameReward (r : ℚ)

/-- Effect of an operation on the pet record. -/
def applyOp (p : Pet) : Op → Pet
  | .dayAdvance d => (progressDay p d).pet
  | .care a => (attemptCareAction p a).1
  | .buyTrick t => (buyTrick p t).1
  | .performTrick => performOwnedTrick p
  | .buyToy t => (buyToy p t).1
  | .buyInsurance => (handleBuyInsurance p).1
  | .gameReward r => handleGameComplete p r

/-- Side conditions under which an operation is issued by the app: random
draws come from `Math.random()`, game rewards are nonnegative (TrashGame pays
5-10, WireGame at least 10), and only catalog tricks/toys are purchasable. -/
def ValidOp : Op → Prop
  | .dayAdvance d => ValidDraws d
  | .care _ => True
  | .buyTrick t => t ∈ trickCatalog
  | .performTrick => True
  | .buyToy t => t ∈ toyCatalog
  | .buyInsurance => True
  | .gameReward r => 0 ≤ r

/-- Documented stat bounds: the five primary stats in `[0,100]`, coins,
experience and days_alive nonnegative. -/
def PetInv (p : Pet) : Prop :=
  (0 ≤ p.hunger ∧ p.hunger ≤ 100) ∧ (0 ≤ p.happiness ∧ p.happiness ≤ 100) ∧
    (0 ≤ p.energy ∧ p.energy ≤ 100) ∧ (0 ≤ p.hygiene ∧ p.hygiene ≤ 100) ∧
    (0 ≤ p.health ∧ p.health ≤ 100) ∧
    0 ≤ p.coins ∧ 0 ≤ p.experience ∧ 0 ≤ p.days_alive

instance (p : Pet) : Decidable (PetInv p) := by
  unfold PetInv; infer_instance

/-- ASCII whitespace for the JS `trim` and the `\s` class of the name regex
(space, tab, LF, VT, FF, CR). -/
def isSpaceChar (c : Char) : Bool :=
  c.toNat = 32 || c.toNat = 9 || c.toNat = 10 || c.toNat = 11 ||
    c.toNat = 12 || c.toNat = 13

/-- JS `String.prototype.trim`: strip whitespace from both ends. -/
def trimChars (l : List Char) : List Char :=
  ((l.dropWhile isSpaceChar).reverse.dropWhile isSpaceChar).reverse

/-- Characters accepted by the name pattern of `validatePetName`
(letters, digits, whitespace, hyphen, apostrophe). -/
def validNameChar (c : Char) : Bool :=
  (48 ≤ c.toNat && c.toNat ≤ 57) || (65 ≤ c.toNat && c.toNat ≤ 90) ||
    (97 ≤ c.toNat && c.toNat ≤ 122) || isSpaceChar c ||
    c.toNat = 39 || c.toNat = 45

/-- Whether `needle` occurs at the start of `hay`. -/
def charsStartWith : List Char → List Char → Bool
  | [], _ => true
  | _ :: _, [] => false
  | a :: as, b :: bs => a == b && charsStartWith as bs

/-- JS `String.prototype.includes` on character lists. -/
def charsContain (needle : List Char) : List Char → Bool
  | [] => needle.isEmpty
  | b :: bs => charsStartWith needle (b :: bs) || charsContain needle bs

/-- Denylist of `validatePetName`, matched case-insensitively as
substrings. -/
def inappropriateWords : List String := ["test123", "admin", "null", "undefined"]

/-- Function `validatePetName` of PetAdopt.jsx (lines 127-158): returns the
error message, or `none` when the name is accepted. -/
def validatePetName (name : String) : Option String :=
  let t := trimChars name.data
  if t.isEmpty then some "Please enter a name for your pet"
  else if t.length < 2 then some "Name must be at least 2 characters"
  else if 20 < t.length then some "Name must be 20 characters or less"
  else if ¬(t.all validNameChar = true) then
    some "Name can only contain letters, numbers, spaces, hyphens, and apostrophes"
  else if inappropriateWords.any
      (fun w => charsContain w.data (t.map lowerChar)) = true then
    some "Please choose a different name"
  else none

/-- The Pet record created by `handleAdopt` (PetAdopt.jsx lines 218-235). -/
def newPetRecord (newId : ℕ) (name species color : String) : Pet :=
  { id := newId
    name := String.mk (trimChars name.data)
    species := species
    stage := "egg"
    hunger := 50
    happiness := 50
    energy := 50
    hygiene := 50
    health := 100
    experience := 0
    coins := 50
    has_insurance := false
    days_alive := 0
    achievements := []
    tricks := []
    toys := []
    color_variant := color }

/-- The entity store visible to the adoption flow: the Pet list and the
Expense ledger. -/
structure Store where
  pets : List Pet
  expenses : List Expense
  deriving DecidableEq

/-- Function `handleAdopt` of PetAdopt.jsx (lines 187-245): rejects invalid
names; otherwise deletes every existing pet together with its Expense records
(filtered by `pet_id`) and then creates the new pet with the fixed initial
stats. -/
def handleAdopt (s : Store) (newId : ℕ) (name species color : String) :
    Option Store :=
  match validatePetName name with
  | some _ => none
  | none =>
      some
        { pets := [newPetRecord newId name species color]
          expenses :=
            s.expenses.filter
              (fun e => !(s.pets.any (fun p => p.id == e.pet_id))) }

/-- Draws with every `Math.random()` returning 0 (a valid draw). -/
def zeroDraws : Draws := { rHunger := 0, rHygiene := 0, rEnergy := 0, rHealth := 0 }

/-- A deceased pet (health 0, mortality recorded by the death useEffect) whose
four need stats are all healthy. -/
def deadPet : Pet :=
  { id := 1, name := "Ghost", species := "dragon", stage := "grown"
    hunger := 60, happiness := 60, energy := 60, hygiene := 60
    health := 0, experience := 7, coins := 30, has_insurance := false
    days_alive := 12, achievements := ["hatchling", "fully_grown"]
    tricks := [], toys := [], color_variant := "default" }

/-- A 5-day-old pet (cost multiplier 1.2) with 50 coins, used to exercise the
care-action pricing. -/
def agedPet : Pet :=
  { id := 2, name := "Pixel", species := "kitsune", stage := "hatchling"
    hunger := 70, happiness := 70, energy := 70, hygiene := 70
    health := 90, experience := 1, coins := 50, has_insurance := false
    days_alive := 5, achievements := [], tricks := [], toys := []
    color_variant := "golden" }

/-- A pet with exactly 20 coins and no tricks or toys, used for the purchase
scenarios. -/
def shopPet : Pet :=
  { id := 3, name := "Nimbus", species := "phoenix", stage := "grown"
    hunger := 80, happiness := 80, energy := 80, hygiene := 80
    health := 80, experience := 6, coins := 20, has_insurance := false
    days_alive := 4, achievements := [], tricks := [], toys := []
    color_variant := "frost" }

/-- A pet with 40 coins and no toys, used for the duplicate toy purchase. -/
def toyPet : Pet :=
  { id := 4, name := "Bubbles", species := "cerberus", stage := "grown"
    hunger := 80, happiness := 40, energy := 80, hygiene := 80
    health := 80, experience := 6, coins := 40, has_insurance := false
    days_alive := 0, achievements := [], tricks := [], toys := []
    color_variant := "default" }

/-- A healthy young pet used as a generic witness state. -/
def freshPet : Pet := newPetRecord 5 "Rex" "dragon" "default"

/-- An insured pet with every need stat critical and health 25: the large
decay applies and the insurance floor engages. -/
def insuredPet : Pet :=
  { id := 6, name := "Aegis", species := "dragon", stage := "hatchling"
    hunger := 10, happiness := 10, energy := 10, hygiene := 10
    health := 25, experience := 2, coins := 30, has_insurance := true
    days_alive := 3, achievements := ["insured"], tricks := [], toys := []
    color_variant := "cosmic" }

/-- A store holding one pet and two of its expenses plus one orphan record,
used as the adoption witness. -/
def exStore : Store :=
  { pets := [shopPet]
    expenses :=
      [{ pet_id := 3, type := "feed", amount := 10, description := "Fed pet" },
       { pet_id := 3, type := "insurance", amount := 15,
         description := "Insurance activation fee" },
       { pet_id := 99, type := "play", amount := 5,
         description := "Played with pet" }] }

/-! ## Helper lemmas -/

theorem countBelow_mono {s t : ℚ} (hst : s ≤ t) (l : List ℚ) :
    countBelow s l ≤ countBelow t l := by
  induction l with
  | nil => simp [countBelow]
  | cons x xs ih =>
    simp only [countBelow, List.filter_cons] at ih ⊢
    by_cases hx : x < s
    · have hxt : x < t := lt_of_lt_of_le hx hst
      simp [hx, hxt]
      omega
    · by_cases hxt : x < t
      · simp [hx, hxt]
        omega
      · simp [hx, hxt]
        exact ih

theorem criticalCount_le_lowCount (p : Pet) : criticalCount p ≤ lowCount p :=
  countBelow_mono (by norm_num) _

theorem floor_cast_nonneg {x : ℚ} (hx : 0 ≤ x) : (0 : ℚ) ≤ (⌊x⌋ : ℤ) := by
  exact_mod_cast Int.floor_nonneg.mpr hx

theorem ageMultiplier_one_le {p : Pet} (h : 0 ≤ p.days_alive) :
    1 ≤ ageMultiplier p := by
  unfold ageMultiplier
  have h0 : (0 : ℚ) ≤ (⌊p.days_alive / 15⌋ : ℤ) :=
    floor_cast_nonneg (by positivity)
  nlinarith

theorem getCostMultiplier_one_le {p : Pet} (h : 0 ≤ p.days_alive) :
    1 ≤ getCostMultiplier p := by
  unfold getCostMultiplier
  have h0 : (0 : ℚ) ≤ (⌊p.days_alive / 5⌋ : ℤ) :=
    floor_cast_nonneg (by positivity)
  nlinarith

theorem healthWritten_of_not_insured (p : Pet) (d : Draws)
    (h : p.has_insurance = false) : healthWritten p d = healthComputed p d := by
  unfold healthWritten
  cases healthComputed p d <;> simp [h]

theorem healthComputed_crit (p : Pet) (d : Draws) (h : 2 ≤ criticalCount p) :
    healthComputed p d = some (max 0 (p.health - (8 + d.rHealth * 7))) := by
  simp [healthComputed, healthDelta, h]

theorem healthComputed_low (p : Pet) (d : Draws) (h1 : ¬ 2 ≤ criticalCount p)
    (h2 : 3 ≤ lowCount p) :
    healthComputed p d = some (max 0 (p.health - (3 + d.rHealth * 4))) := by
  simp [healthComputed, healthDelta, h1, h2]

theorem healthComputed_regen (p : Pet) (d : Draws) (h1 : ¬ 2 ≤ criticalCount p)
    (_h2 : ¬ 3 ≤ lowCount p) (h3 : lowCount p = 0) (h4 : p.health < 100) :
    healthComputed p d = some (min 100 (p.health + 5)) := by
  simp [healthComputed, healthDelta, h1, h3, h4]

theorem healthComputed_none (p : Pet) (d : Draws) (h1 : ¬ 2 ≤ criticalCount p)
    (h2 : ¬ 3 ≤ lowCount p) (h3 : ¬(lowCount p = 0 ∧ p.health < 100)) :
    healthComputed p d = none := by
  simp only [healthComputed, healthDelta, h1, h2, if_false]
  rw [if_neg h3]

theorem progressDay_pet_health (p : Pet) (d : Draws) :
    (progressDay p d).pet.health = (healthWritten p d).getD p.health := by
  simp [progressDay]

theorem healthWritten_some (p : Pet) (d : Draws) (v : ℚ)
    (h : healthComputed p d = some v) :
    healthWritten p d =
      if p.has_insurance = true ∧ v < 20 then some 20 else some v := by
  unfold healthWritten
  rw [h]

theorem healthWritten_none (p : Pet) (d : Draws)
    (h : healthComputed p d = none) : healthWritten p d = none := by
  unfold healthWritten
  rw [h]

/-! ## Claims -/

/-- **C1.** For every day-advance on a live pet, the health-delta rule of
`progressDay` is: a draw from `[8,15)` is subtracted (floored at 0) when at
least 2 of the four need stats are below the critical threshold 25; otherwise
a draw from `[3,7)` — a range whose supremum 7 lies below the critical case's
minimum 8 — is subtracted when at least 3 stats are below the moderate
threshold 50; otherwise health regenerates by 5 capped at 100 when no stat is
below 50; otherwise health is unchanged.  The counts are the pre-decay
counts, and for an uninsured pet this computed value is exactly the health
written by the day-advance. -/
theorem progressDay_health_delta_rule (p : Pet) (d : Draws)
    (hd : ValidDraws d) (hlive : 0 < p.health) (hcap : p.health ≤ 100) :
    (2 ≤ criticalCount p →
      ∃ x, 8 ≤ x ∧ x < 15 ∧
        (healthComputed p d).getD p.health = max 0 (p.health - x) ∧
        (healthComputed p d).getD p.health < p.health) ∧
    (criticalCount p < 2 → 3 ≤ lowCount p →
      ∃ x, 3 ≤ x ∧ x < 7 ∧
        (healthComputed p d).getD p.health = max 0 (p.health - x) ∧
        (healthComputed p d).getD p.health < p.health) ∧
    (lowCount p = 0 →
      (healthComputed p d).getD p.health = min 100 (p.health + 5) ∧
      p.health ≤ (healthComputed p d).getD p.health) ∧
    (criticalCount p < 2 → lowCount p < 3 → lowCount p ≠ 0 →
      (healthComputed p d).getD p.health = p.health) ∧
    (p.has_insurance = false →
      (progressDay p d).pet.health = (healthComputed p d).getD p.health) := by
  obtain ⟨-, -, -, hr0, hr1⟩ :
      (0 ≤ d.rHunger ∧ d.rHunger < 1) ∧ (0 ≤ d.rHygiene ∧ d.rHygiene < 1) ∧
        (0 ≤ d.rEnergy ∧ d.rEnergy < 1) ∧ 0 ≤ d.rHealth ∧ d.rHealth < 1 := by
    obtain ⟨a, b, c, e⟩ := hd; exact ⟨a, b, c, e⟩
  refine ⟨?_, ?_, ?_, ?_, ?_⟩
  · intro hcrit
    refine ⟨8 + d.rHealth * 7, by nlinarith, by nlinarith, ?_, ?_⟩
    · simp [healthComputed, healthDelta, hcrit]
    · simp only [healthComputed, healthDelta, hcrit, if_true, Option.getD_some]
      exact max_lt_iff.mpr ⟨hlive, by nlinarith⟩
  · intro hcrit hlow
    have hcrit' : ¬ 2 ≤ criticalCount p := by omega
    refine ⟨3 + d.rHealth * 4, by nlinarith, by nlinarith, ?_, ?_⟩
    · simp [healthComputed, healthDelta, hcrit', hlow]
    · simp only [healthComputed, healthDelta, hcrit', hlow, if_true, if_false,
        Option.getD_some]
      exact max_lt_iff.mpr ⟨hlive, by nlinarith⟩
  · intro hlow
    have hcrit : criticalCount p = 0 := by
      have := criticalCount_le_lowCount p; omega
    have hcrit' : ¬ 2 ≤ criticalCount p := by omega
    have hlow' : ¬ 3 ≤ lowCount p := by omega
    by_cases hh : p.health < 100
    · constructor
      · simp [healthComputed, healthDelta, hcrit', hlow', hlow, hh]
      · simp only [healthComputed, healthDelta, hcrit', hlow', hlow, hh,
          and_true, if_true, if_false, Option.getD_some, true_and]
        exact le_min (by linarith) (by linarith)
    · have h100 : p.health = 100 := le_antisymm hcap (not_lt.mp hh)
      constructor
      · simp only [healthComputed, healthDelta, hcrit', hlow', hlow, hh,
          and_false, if_false, Option.getD_none, true_and]
        rw [h100]
        norm_num
      · simp [healthComputed, healthDelta, hcrit', hlow', hlow, hh]
  · intro hcrit hlow hlow0
    have hcrit' : ¬ 2 ≤ criticalCount p := by omega
    have hlow' : ¬ 3 ≤ lowCount p := by omega
    simp [healthComputed, healthDelta, hcrit', hlow', hlow0]
  · intro hins
    simp [progressDay, healthWritten_of_not_insured p d hins]

/-- Witness for C1 at a concrete input: a healthy 5-day-old pet with all need
stats at 70 and health 90 hits the regeneration branch. -/
theorem progressDay_health_delta_rule_witness :
    (healthComputed agedPet zeroDraws).getD agedPet.health =
      min 100 (agedPet.health + 5) ∧
    agedPet.health ≤ (healthComputed agedPet zeroDraws).getD agedPet.health :=
  (progressDay_health_delta_rule agedPet zeroDraws
    (by norm_num [ValidDraws, zeroDraws])
    (by norm_num [agedPet]) (by norm_num [agedPet])).2.2.1
    (by norm_num [lowCount, countBelow, needStats, agedPet])

/-- **C9.** The criticalCount/lowCount thresholds deciding the health delta
are evaluated over the four need stats as they were before this day's decay:
a day whose counts were below the trigger levels never decreases health that
day — even when its own decay pushes stats under the thresholds — and for an
uninsured pet health strictly decreases on a day-advance exactly when the
pre-decay counts trigger a decay branch (and health was still positive). -/
theorem progressDay_counts_pre_decay (p : Pet) (d : Draws) (hd : ValidDraws d) :
    (criticalCount p < 2 ∧ lowCount p < 3 →
      p.health ≤ (progressDay p d).pet.health) ∧
    (p.has_insurance = false →
      ((progressDay p d).pet.health < p.health ↔
        0 < p.health ∧ (2 ≤ criticalCount p ∨ 3 ≤ lowCount p))) := by
  obtain ⟨-, -, -, hr0, hr1⟩ :
      (0 ≤ d.rHunger ∧ d.rHunger < 1) ∧ (0 ≤ d.rHygiene ∧ d.rHygiene < 1) ∧
        (0 ≤ d.rEnergy ∧ d.rEnergy < 1) ∧ 0 ≤ d.rHealth ∧ d.rHealth < 1 := by
    obtain ⟨a, b, c, e⟩ := hd; exact ⟨a, b, c, e⟩
  constructor
  · rintro ⟨hc, hl⟩
    have hc' : ¬ 2 ≤ criticalCount p := by omega
    have hl' : ¬ 3 ≤ lowCount p := by omega
    rw [progressDay_pet_health]
    by_cases hg : lowCount p = 0 ∧ p.health < 100
    · have hle : p.health ≤ min 100 (p.health + 5) :=
        le_min (le_of_lt hg.2) (by linarith)
      rw [healthWritten_some p d _ (healthComputed_regen p d hc' hl' hg.1 hg.2)]
      split_ifs with hif
      · simp only [Option.getD_some]
        linarith [hif.2]
      · simpa using hle
    · rw [healthWritten_none p d (healthComputed_none p d hc' hl' hg)]
      simp
  · intro hins
    rw [progressDay_pet_health, healthWritten_of_not_insured p d hins]
    constructor
    · intro hlt
      by_cases hc : 2 ≤ criticalCount p
      · refine ⟨?_, Or.inl hc⟩
        rw [healthComputed_crit p d hc] at hlt
        simp only [Option.getD_some] at hlt
        have h0 : (0 : ℚ) ≤ max 0 (p.health - (8 + d.rHealth * 7)) :=
          le_max_left _ _
        linarith
      · by_cases hl : 3 ≤ lowCount p
        · refine ⟨?_, Or.inr hl⟩
          rw [healthComputed_low p d hc hl] at hlt
          simp only [Option.getD_some] at hlt
          have h0 : (0 : ℚ) ≤ max 0 (p.health - (3 + d.rHealth * 4)) :=
            le_max_left _ _
          linarith
        · by_cases hg : lowCount p = 0 ∧ p.health < 100
          · rw [healthComputed_regen p d hc hl hg.1 hg.2] at hlt
            simp only [Option.getD_some] at hlt
            have hle : p.health ≤ min 100 (p.health + 5) :=
              le_min (le_of_lt hg.2) (by linarith)
            exact absurd hlt (not_lt.mpr hle)
          · rw [healthComputed_none p d hc hl hg] at hlt
            simp at hlt
    · rintro ⟨hpos, hor⟩
      by_cases hc : 2 ≤ criticalCount p
      · rw [healthComputed_crit p d hc]
        simp only [Option.getD_some]
        exact max_lt_iff.mpr ⟨hpos, by nlinarith⟩
      · have hl : 3 ≤ lowCount p := by
          rcases hor with h | h
          · omega
          · exact h
        rw [healthComputed_low p d hc hl]
        simp only [Option.getD_some]
        exact max_lt_iff.mpr ⟨hpos, by nlinarith⟩

/-- Witness for C9 at a concrete input: a pet whose pre-decay stats are all
70 — even though the day's decay lowers them — never loses health on that
day-advance. -/
theorem progressDay_counts_pre_decay_witness :
    agedPet.health ≤ (progressDay agedPet zeroDraws).pet.health :=
  (progressDay_counts_pre_decay agedPet zeroDraws
    (by norm_num [ValidDraws, zeroDraws])).1
    (by constructor <;>
        norm_num [criticalCount, lowCount, countBelow, needStats, agedPet])

/-- **C3.** For every day-advance on an insured pet, any health value written
by the day-advance is at least the protection floor 20 (and becomes the pet's
new health); and whenever the computed post-decay health falls below 20 the
written value is exactly 20 and the saved-by-insurance notification is
emitted. -/
theorem progressDay_insurance_floor (p : Pet) (d : Draws)
    (hins : p.has_insurance = true) :
    (∀ h, healthWritten p d = some h →
      20 ≤ h ∧ (progressDay p d).pet.health = h) ∧
    (∀ h0, healthComputed p d = some h0 → h0 < 20 →
      healthWritten p d = some 20 ∧
      "🛡️ Insurance saved your pet from critical health!" ∈
        (progressDay p d).notices) := by
  constructor
  · intro h hw
    refine ⟨?_, by rw [progressDay_pet_health, hw]; rfl⟩
    cases hc : healthComputed p d with
    | none => rw [healthWritten_none p d hc] at hw; simp at hw
    | some v =>
      rw [healthWritten_some p d v hc] at hw
      split_ifs at hw with hif
      · injection hw with hw'
        rw [← hw']
      · injection hw with hw'
        rw [hins] at hif
        simp only [true_and, not_lt] at hif
        rw [← hw']
        exact hif
  · intro h0 hc hlt
    constructor
    · rw [healthWritten_some p d h0 hc, if_pos ⟨hins, hlt⟩]
    · have hs : insuranceSaved p d = true := by
        unfold insuranceSaved
        rw [hc]
        simp [hins, hlt]
      simp [progressDay, hs]

/-- Witness for C3 at a concrete input: the insured pet with all need stats
critical and health 25 computes post-decay health 17 and is clamped to
exactly 20, with the notification emitted. -/
theorem progressDay_insurance_floor_witness :
    healthWritten insuredPet zeroDraws = some 20 ∧
    "🛡️ Insurance saved your pet from critical health!" ∈
      (progressDay insuredPet zeroDraws).notices :=
  (progressDay_insurance_floor insuredPet zeroDraws rfl).2 17
    (by norm_num [healthComputed, healthDelta, criticalCount, countBelow,
        needStats, insuredPet, zeroDraws])
    (by norm_num)

/-- **C2 fails on the code.** The day-advance logic of PetCare.jsx carries no
death guard (the decay useEffect runs regardless of the `petDied` flag, which
only switches the rendered screen), so a pet whose health reached 0 keeps
being mutated by day-advances: `days_alive` and `experience` increment, the
stats decay — and with all need stats healthy the regeneration branch even
raises health back to 5, resurrecting the recorded-dead pet. -/
theorem dead_pet_day_advance_mutates :
    deadPet.health ≤ 0 ∧
    (progressDay deadPet zeroDraws).pet.days_alive = deadPet.days_alive + 1 ∧
    (progressDay deadPet zeroDraws).pet.experience = deadPet.experience + 1 ∧
    (progressDay deadPet zeroDraws).pet.health = 5 ∧
    (progressDay deadPet zeroDraws).pet ≠ deadPet := by
  have h1 : criticalCount deadPet = 0 := by
    norm_num [criticalCount, countBelow, needStats, deadPet]
  have h2 : lowCount deadPet = 0 := by
    norm_num [lowCount, countBelow, needStats, deadPet]
  have hc : healthComputed deadPet zeroDraws = some 5 := by
    rw [healthComputed_regen deadPet zeroDraws (by omega) (by omega) h2
      (by norm_num [deadPet])]
    norm_num [deadPet]
  have hfive : (progressDay deadPet zeroDraws).pet.health = 5 := by
    rw [progressDay_pet_health, healthWritten_of_not_insured _ _ rfl, hc]
    rfl
  refine ⟨by norm_num [deadPet], by simp [progressDay], by simp [progressDay],
    hfive, ?_⟩
  intro heq
  rw [heq] at hfive
  norm_num [deadPet] at hfive

theorem dayStep_egg_noevo (q : Pet) (d : Draws) (hs : q.stage = "egg")
    (he : q.experience + 1 < 3) :
    dayStep q d = (progressDay q d).pet ∧
    (progressDay q d).pet.stage = "egg" ∧
    (progressDay q d).pet.experience = q.experience + 1 := by
  have hps : (progressDay q d).pet.stage = "egg" := by
    simpa [progressDay] using hs
  have hpe : (progressDay q d).pet.experience = q.experience + 1 := by
    simp [progressDay]
  refine ⟨?_, hps, hpe⟩
  unfold dayStep evolutionCheck
  have hA : ¬((progressDay q d).pet.stage = "egg" ∧
      3 ≤ (progressDay q d).pet.experience) := by
    rintro ⟨-, h3⟩
    rw [hpe] at h3
    linarith
  have hB : ¬((progressDay q d).pet.stage = "hatchling" ∧
      5 ≤ (progressDay q d).pet.experience) := by
    rintro ⟨hs2, -⟩
    rw [hps] at hs2
    exact absurd hs2 (by decide)
  rw [if_neg hA, if_neg hB]

/-- **C4.** The evolution check performs exactly the two documented
transitions and no others: an egg with at least 3 experience becomes a
hatchling with experience reset to 0 and the `hatchling` achievement
appended; a hatchling with at least 5 experience becomes grown with
experience unchanged and the `fully_grown` achievement appended; in every
other state the pet is untouched.  Consequently a fresh egg pet with
experience 0 ends after three day-advances (each granting +1 experience) in
stage hatchling with experience 0. -/
theorem evolutionCheck_transitions :
    (∀ p : Pet, p.stage = "egg" → 3 ≤ p.experience →
      evolutionCheck p =
        { p with stage := "hatchling", experience := 0,
                 achievements := p.achievements ++ ["hatchling"] }) ∧
    (∀ p : Pet, p.stage = "hatchling" → 5 ≤ p.experience →
      evolutionCheck p =
        { p with stage := "grown",
                 achievements := p.achievements ++ ["fully_grown"] }) ∧
    (∀ p : Pet, ¬(p.stage = "egg" ∧ 3 ≤ p.experience) →
      ¬(p.stage = "hatchling" ∧ 5 ≤ p.experience) →
      evolutionCheck p = p) ∧
    (∀ p0 : Pet, ∀ d1 d2 d3 : Draws, p0.stage = "egg" → p0.experience = 0 →
      (dayStep (dayStep (dayStep p0 d1) d2) d3).stage = "hatchling" ∧
      (dayStep (dayStep (dayStep p0 d1) d2) d3).experience = 0) := by
  refine ⟨?_, ?_, ?_, ?_⟩
  · intro p h1 h2
    unfold evolutionCheck
    rw [if_pos ⟨h1, h2⟩]
  · intro p h1 h2
    unfold evolutionCheck
    have hA : ¬(p.stage = "egg" ∧ 3 ≤ p.experience) := by
      rintro ⟨he, -⟩
      rw [h1] at he
      exact absurd he (by decide)
    rw [if_neg hA, if_pos ⟨h1, h2⟩]
  · intro p h1 h2
    unfold evolutionCheck
    rw [if_neg h1, if_neg h2]
  · intro p0 d1 d2 d3 hstage hexp
    obtain ⟨e1, s1, x1⟩ := dayStep_egg_noevo p0 d1 hstage
      (by rw [hexp]; norm_num)
    rw [hexp] at x1
    norm_num at x1
    obtain ⟨e2, s2, x2⟩ := dayStep_egg_noevo (progressDay p0 d1).pet d2 s1
      (by rw [x1]; norm_num)
    rw [x1] at x2
    norm_num at x2
    rw [e1, e2]
    have s3 : (progressDay (progressDay (progressDay p0 d1).pet d2).pet
        d3).pet.stage = "egg" := by
      simpa [progressDay] using s2
    have x3 : (progressDay (progressDay (progressDay p0 d1).pet d2).pet
        d3).pet.experience = 3 := by
      have hstep : ∀ q : Pet, (progressDay q d3).pet.experience =
          q.experience + 1 := fun q => by simp [progressDay]
      rw [hstep, x2]
      norm_num
    unfold dayStep evolutionCheck
    rw [if_pos ⟨s3, by rw [x3]⟩]
    constructor <;> rfl

/-- Witness for C4 at a concrete input: a freshly adopted pet hatches after
its third simulated day. -/
theorem evolutionCheck_transitions_witness :
    (dayStep (dayStep (dayStep freshPet zeroDraws) zeroDraws)
      zeroDraws).stage = "hatchling" ∧
    (dayStep (dayStep (dayStep freshPet zeroDraws) zeroDraws)
      zeroDraws).experience = 0 :=
  evolutionCheck_transitions.2.2.2 freshPet zeroDraws zeroDraws zeroDraws
    rfl rfl

theorem healthWritten_getD_bounds (p : Pet) (d : Draws) (hd : ValidDraws d)
    (hh0 : 0 ≤ p.health) (hh1 : p.health ≤ 100) :
    0 ≤ (healthWritten p d).getD p.health ∧
      (healthWritten p d).getD p.health ≤ 100 := by
  obtain ⟨hr0, hr1⟩ : 0 ≤ d.rHealth ∧ d.rHealth < 1 := hd.2.2.2
  cases hc : healthComputed p d with
  | none =>
    rw [healthWritten_none p d hc]
    exact ⟨hh0, hh1⟩
  | some v =>
    have hv : 0 ≤ v ∧ v ≤ 100 := by
      unfold healthComputed healthDelta at hc
      split_ifs at hc with h1 h2 h3
      · injection hc with hc'
        rw [← hc']
        exact ⟨le_max_left _ _, max_le (by norm_num) (by nlinarith)⟩
      · injection hc with hc'
        rw [← hc']
        exact ⟨le_max_left _ _, max_le (by norm_num) (by nlinarith)⟩
      · injection hc with hc'
        rw [← hc']
        exact ⟨le_min (by norm_num) (by linarith), min_le_left _ _⟩
    rw [healthWritten_some p d v hc]
    split_ifs with hif
    · norm_num
    · simpa using hv

theorem applyCare_bounds (p : Pet) (a : CareAction) (hp : PetInv p) :
    PetInv (applyCare p a) := by
  obtain ⟨⟨hu0, hu1⟩, ⟨hq0, hq1⟩, ⟨he0, he1⟩, ⟨hy0, hy1⟩, ⟨hh0, hh1⟩,
    hc0, hx0, hd0⟩ := hp
  cases a with
  | feed =>
    exact ⟨⟨le_min (by norm_num) (by linarith), min_le_left _ _⟩, ⟨hq0, hq1⟩,
      ⟨le_min (by norm_num) (by linarith), min_le_left _ _⟩, ⟨hy0, hy1⟩,
      ⟨hh0, hh1⟩, hc0, hx0, hd0⟩
  | play =>
    exact ⟨⟨hu0, hu1⟩, ⟨le_min (by norm_num) (by linarith), min_le_left _ _⟩,
      ⟨le_max_left _ _, max_le (by norm_num) (by linarith)⟩, ⟨hy0, hy1⟩,
      ⟨hh0, hh1⟩, hc0, hx0, hd0⟩
  | rest =>
    exact ⟨⟨hu0, hu1⟩, ⟨le_min (by norm_num) (by linarith), min_le_left _ _⟩,
      ⟨le_min (by norm_num) (by linarith), min_le_left _ _⟩, ⟨hy0, hy1⟩,
      ⟨hh0, hh1⟩, hc0, hx0, hd0⟩
  | clean =>
    exact ⟨⟨hu0, hu1⟩, ⟨le_min (by norm_num) (by linarith), min_le_left _ _⟩,
      ⟨he0, he1⟩, ⟨le_min (by norm_num) (by linarith), min_le_left _ _⟩,
      ⟨hh0, hh1⟩, hc0, hx0, hd0⟩
  | health =>
    exact ⟨⟨hu0, hu1⟩, ⟨hq0, hq1⟩, ⟨he0, he1⟩, ⟨hy0, hy1⟩,
      ⟨le_min (by norm_num) (by linarith), min_le_left _ _⟩, hc0, hx0, hd0⟩

theorem PetInv_override (q : Pet) (hq : PetInv q) (c : ℚ) (hc : 0 ≤ c)
    (ach : List String) : PetInv { q with coins := c, achievements := ach } := by
  obtain ⟨A, B, C, D, E, _, G, H⟩ := hq
  exact ⟨A, B, C, D, E, hc, G, H⟩

/-- **C5.** Every operation available in the app — day-advance, each care
action, trick purchase and performance, toy purchase, insurance purchase and
mini-game reward — preserves the documented bounds: the five primary stats
stay in `[0,100]` and coins, experience and days_alive stay nonnegative. -/
theorem stat_bounds_preserved (p : Pet) (op : Op) (hp : PetInv p)
    (hop : ValidOp op) : PetInv (applyOp p op) := by
  obtain ⟨⟨hu0, hu1⟩, ⟨hq0, hq1⟩, ⟨he0, he1⟩, ⟨hy0, hy1⟩, ⟨hh0, hh1⟩,
    hc0, hx0, hd0⟩ := id hp
  cases op with
  | dayAdvance d =>
    have hd := hop
    obtain ⟨⟨ha0, ha1⟩, ⟨hb0, hb1⟩, ⟨hg0, hg1⟩, hr0, hr1⟩ :
        (0 ≤ d.rHunger ∧ d.rHunger < 1) ∧ (0 ≤ d.rHygiene ∧ d.rHygiene < 1) ∧
          (0 ≤ d.rEnergy ∧ d.rEnergy < 1) ∧ 0 ≤ d.rHealth ∧ d.rHealth < 1 := by
      obtain ⟨a, b, c, e⟩ := hd; exact ⟨a, b, c, e⟩
    have hm : 1 ≤ ageMultiplier p := ageMultiplier_one_le hd0
    have hdec1 : 0 ≤ (5 + d.rHunger * 8) * ageMultiplier p :=
      mul_nonneg (by linarith) (by linarith)
    have hdec2 : 0 ≤ (4 + d.rHygiene * 6) * ageMultiplier p :=
      mul_nonneg (by linarith) (by linarith)
    have hdec3 : 0 ≤ (3 + d.rEnergy * 4) * ageMultiplier p :=
      mul_nonneg (by linarith) (by linarith)
    have hhb := healthWritten_getD_bounds p d hd hh0 hh1
    refine ⟨⟨?_, ?_⟩, ⟨?_, ?_⟩, ⟨?_, ?_⟩, ⟨?_, ?_⟩, ⟨?_, ?_⟩, ?_, ?_, ?_⟩ <;>
      simp only [applyOp, progressDay]
    · exact le_max_left _ _
    · exact max_le (by norm_num) (by linarith)
    · exact le_max_left _ _
    · exact max_le (by norm_num) (by linarith)
    · exact le_max_left _ _
    · exact max_le (by norm_num) (by linarith)
    · exact le_max_left _ _
    · exact max_le (by norm_num) (by linarith)
    · exact hhb.1
    · exact hhb.2
    · split_ifs
      · exact le_max_left _ _
      · exact hc0
    · linarith
    · linarith
  | care a =>
    simp only [applyOp, attemptCareAction, handleCareAction]
    split_ifs with h1 h2 h3 h4
    · exact hp
    · exact hp
    all_goals
      exact PetInv_override (applyCare p a) (applyCare_bounds p a hp) _
        (sub_nonneg.mpr (not_lt.mp h2)) _
  | buyTrick t =>
    simp only [applyOp, buyTrick]
    split_ifs with hA hB
    · exact hp
    · exact hp
    · exact ⟨⟨hu0, hu1⟩, ⟨hq0, hq1⟩, ⟨he0, he1⟩, ⟨hy0, hy1⟩, ⟨hh0, hh1⟩,
        sub_nonneg.mpr (not_lt.mp hB), hx0, hd0⟩
  | performTrick =>
    have hx1 : (0 : ℚ) ≤ p.experience + 1 := by linarith
    simp only [applyOp, performOwnedTrick]
    split_ifs with hA
    · exact ⟨⟨hu0, hu1⟩, ⟨le_min (by norm_num) (by linarith), min_le_left _ _⟩,
        ⟨le_max_left _ _, max_le (by norm_num) (by linarith)⟩, ⟨hy0, hy1⟩,
        ⟨hh0, hh1⟩, hc0, hx1, hd0⟩
    · exact ⟨⟨hu0, hu1⟩, ⟨hq0, hq1⟩, ⟨he0, he1⟩, ⟨hy0, hy1⟩, ⟨hh0, hh1⟩,
        hc0, hx0, hd0⟩
  | buyToy t =>
    have hboost : 0 ≤ t.happyBoost := by
      have hmem : t ∈ toyCatalog := hop
      simp only [toyCatalog, List.mem_cons, List.mem_nil_iff, or_false]
        at hmem
      rcases hmem with rfl | rfl | rfl | rfl <;>
        norm_num [toyBall, toySqueaky, toyWand, toyCrown]
    simp only [applyOp, buyToy]
    split_ifs with hA hB
    · exact ⟨⟨hu0, hu1⟩, ⟨hq0, hq1⟩, ⟨he0, he1⟩, ⟨hy0, hy1⟩, ⟨hh0, hh1⟩,
        hc0, hx0, hd0⟩
    · exact ⟨⟨hu0, hu1⟩, ⟨hq0, hq1⟩, ⟨he0, he1⟩, ⟨hy0, hy1⟩, ⟨hh0, hh1⟩,
        hc0, hx0, hd0⟩
    · exact ⟨⟨hu0, hu1⟩, ⟨le_min (by norm_num) (by linarith), min_le_left _ _⟩,
        ⟨he0, he1⟩, ⟨hy0, hy1⟩, ⟨hh0, hh1⟩,
        sub_nonneg.mpr (not_lt.mp hB), hx0, hd0⟩
  | buyInsurance =>
    simp only [applyOp, handleBuyInsurance]
    split_ifs with hA
    · exact ⟨⟨hu0, hu1⟩, ⟨hq0, hq1⟩, ⟨he0, he1⟩, ⟨hy0, hy1⟩, ⟨hh0, hh1⟩,
        hc0, hx0, hd0⟩
    · exact ⟨⟨hu0, hu1⟩, ⟨hq0, hq1⟩, ⟨he0, he1⟩, ⟨hy0, hy1⟩, ⟨hh0, hh1⟩,
        sub_nonneg.mpr (not_lt.mp hA), hx0, hd0⟩
  | gameReward r =>
    have hr : (0 : ℚ) ≤ r := hop
    have hcr : (0 : ℚ) ≤ p.coins + r := by linarith
    simp only [applyOp, handleGameComplete]
    exact ⟨⟨hu0, hu1⟩, ⟨hq0, hq1⟩, ⟨he0, he1⟩, ⟨hy0, hy1⟩, ⟨hh0, hh1⟩,
      hcr, hx0, hd0⟩

/-- Witness for C5 at a concrete input: feeding a freshly adopted pet keeps
every stat within bounds. -/
theorem stat_bounds_preserved_witness :
    PetInv (applyOp freshPet (Op.care CareAction.feed)) :=
  stat_bounds_preserved freshPet (Op.care CareAction.feed)
    (by norm_num [PetInv, freshPet, newPetRecord]) trivial

/-- **C6 fails as stated.** The claim prices an action at
`ceil(baseCost * costMultiplier)`, but `handleCareAction` charges the
un-rounded product: at 5 days of age (multiplier 1.2) a `clean` (base 7)
displays a price of `ceil(8.4) = 9` yet deducts exactly 8.4 coins, leaving
41.6 rather than 41. -/
theorem careAction_ceil_charge_cex :
    displayCost agedPet CareAction.clean = 9 ∧
    (attemptCareAction agedPet CareAction.clean).1.coins = 208 / 5 ∧
    (attemptCareAction agedPet CareAction.clean).1.coins ≠
      agedPet.coins - (displayCost agedPet CareAction.clean : ℚ) := by
  have hm : getCostMultiplier agedPet = 6 / 5 := by
    norm_num [getCostMultiplier, agedPet]
  have hcost : baseCost CareAction.clean * getCostMultiplier agedPet =
      42 / 5 := by
    rw [hm]
    norm_num [baseCost]
  have hdc : displayCost agedPet CareAction.clean = 9 := by
    unfold displayCost
    rw [hcost, Int.ceil_eq_iff]
    norm_num
  have hatt : (attemptCareAction agedPet CareAction.clean).1.coins =
      208 / 5 := by
    simp only [attemptCareAction, handleCareAction]
    rw [hdc, hcost]
    rw [if_neg (by norm_num [agedPet]), if_neg (by norm_num [agedPet])]
    norm_num [agedPet]
  refine ⟨hdc, hatt, ?_⟩
  rw [hatt, hdc]
  norm_num [agedPet]

/-- **C6 (amended).** The displayed price and the affordability gate use
`ceil(baseCost * costMultiplier)`, and an unaffordable action is dropped with
no mutation, no charge and no Expense; but a successful action deducts the
un-rounded product `baseCost * costMultiplier` (not its ceiling), creating
exactly one Expense tagged with the action name and carrying that un-rounded
amount when the cost is nonzero, and no Expense when it is zero. -/
theorem careAction_pricing (p : Pet) (a : CareAction) :
    (p.coins < (displayCost p a : ℚ) → attemptCareAction p a = (p, [])) ∧
    ((displayCost p a : ℚ) ≤ p.coins →
      (attemptCareAction p a).1.coins =
        p.coins - baseCost a * getCostMultiplier p ∧
      (attemptCareAction p a).2 =
        (if 0 < baseCost a * getCostMultiplier p then
          [{ pet_id := p.id, type := actionName a,
             amount := baseCost a * getCostMultiplier p,
             description := actionDesc a }]
         else [])) := by
  constructor
  · intro h
    unfold attemptCareAction
    rw [if_pos h]
  · intro h
    have hc : baseCost a * getCostMultiplier p ≤ (displayCost p a : ℚ) :=
      Int.le_ceil _
    have hno : ¬ p.coins < baseCost a * getCostMultiplier p :=
      not_lt.mpr (le_trans hc h)
    have hval : attemptCareAction p a =
        ({ applyCare p a with
            coins := p.coins - baseCost a * getCostMultiplier p
            achievements :=
              if a = CareAction.feed ∧
                  ¬(p.achievements.contains "first_feed" = true)
              then p.achievements ++ ["first_feed"] else p.achievements },
         if 0 < baseCost a * getCostMultiplier p then
           [{ pet_id := p.id, type := actionName a,
              amount := baseCost a * getCostMultiplier p,
              description := actionDesc a }]
         else []) := by
      simp only [attemptCareAction, handleCareAction]
      rw [if_neg (not_lt.mpr h), if_neg hno]
    rw [hval]
    exact ⟨rfl, rfl⟩

/-- Witness for the amended C6 at a concrete input: feeding a fresh pet
(multiplier 1) deducts exactly the un-rounded cost. -/
theorem careAction_pricing_witness :
    (attemptCareAction freshPet CareAction.feed).1.coins =
      freshPet.coins - baseCost CareAction.feed * getCostMultiplier freshPet :=
  ((careAction_pricing freshPet CareAction.feed).2 (by
    have hm : getCostMultiplier freshPet = 1 := by
      norm_num [getCostMultiplier, freshPet, newPetRecord]
    have hdc : displayCost freshPet CareAction.feed = 10 := by
      unfold displayCost
      rw [hm]
      norm_num [baseCost]
    rw [hdc]
    norm_num [freshPet, newPetRecord])).1

/-- **C7 fails as stated.** A trick purchase deducts coins (20 coins drop to
0 buying `roll`) yet appends no Expense record to the ledger. -/
theorem coin_deduction_expense_cex :
    shopPet.coins = 20 ∧
    (buyTrick shopPet trickRoll).1.coins = 0 ∧
    (buyTrick shopPet trickRoll).2 = [] := by
  have h0 : ¬ (shopPet.tricks.contains trickRoll.id = true) := by decide
  refine ⟨rfl, ?_, ?_⟩
  · simp only [buyTrick]
    rw [if_neg h0, if_neg (by norm_num [shopPet, trickRoll])]
    norm_num [shopPet, trickRoll]
  · simp only [buyTrick]
    rw [if_neg h0, if_neg (by norm_num [shopPet, trickRoll])]

/-- **C7 (amended).** Care actions with nonzero cost, the daily insurance
billing and the insurance activation each create exactly one Expense record
alongside the coin deduction; trick and toy purchases deduct coins without
creating any Expense record. -/
theorem expense_ledger_per_deduction (p : Pet) :
    (∀ a : CareAction, ¬ p.coins < baseCost a * getCostMultiplier p →
      0 < baseCost a * getCostMultiplier p →
      (handleCareAction p a).2 =
        [{ pet_id := p.id, type := actionName a,
           amount := baseCost a * getCostMultiplier p,
           description := actionDesc a }]) ∧
    (∀ d : Draws, p.has_insurance = true →
      (progressDay p d).expenses =
        [{ pet_id := p.id, type := "insurance",
           amount := getInsuranceCost p,
           description := "Daily insurance payment" }]) ∧
    (∀ d : Draws, p.has_insurance = false →
      (progressDay p d).expenses = []) ∧
    (¬ p.coins < 15 →
      (handleBuyInsurance p).2 =
        [{ pet_id := p.id, type := "insurance", amount := 15,
           description := "Insurance activation fee" }]) ∧
    (∀ t : TrickItem, (buyTrick p t).2 = []) ∧
    (∀ t : ToyItem, (buyToy p t).2 = []) := by
  refine ⟨?_, ?_, ?_, ?_, ?_, ?_⟩
  · intro a hno hpos
    simp only [handleCareAction]
    rw [if_neg hno, if_pos hpos]
  · intro d hins
    simp only [progressDay]
    rw [if_pos hins]
  · intro d hins
    simp only [progressDay]
    rw [if_neg (by rw [hins]; exact Bool.false_ne_true)]
  · intro hno
    simp only [handleBuyInsurance]
    rw [if_neg hno]
  · intro t
    simp only [buyTrick]
    split_ifs <;> rfl
  · intro t
    simp only [buyToy]
    split_ifs <;> rfl

/-- Witness for the amended C7 at a concrete input: the insured pet is billed
exactly one insurance Expense on its day-advance. -/
theorem expense_ledger_per_deduction_witness :
    (progressDay insuredPet zeroDraws).expenses =
      [{ pet_id := insuredPet.id, type := "insurance",
         amount := getInsuranceCost insuredPet,
         description := "Daily insurance payment" }] :=
  (expense_ledger_per_deduction insuredPet).2.1 zeroDraws rfl

/-- **C8 fails on the code.** The Toy Shop stores
`toy.name.toLowerCase().replace(' ', '')` into `toys` but checks ownership
against a different identifier: buying `Squeaky Toy` stores `squeakytoy`
while the owned check looks for `squeaky`, so a second purchase is not
rejected — the pet with 40 coins pays twice, ending with 0 coins and the
duplicate entry `[squeakytoy, squeakytoy]`, violating the claimed
already-owned rejection and duplicate-freeness. -/
theorem toy_repurchase_duplicates :
    toyStoreId toySqueaky = "squeakytoy" ∧
    toySqueaky.ownedId = "squeaky" ∧
    (buyToy toyPet toySqueaky).1.toys = ["squeakytoy"] ∧
    (buyToy (buyToy toyPet toySqueaky).1 toySqueaky).1.coins = 0 ∧
    (buyToy (buyToy toyPet toySqueaky).1 toySqueaky).1.toys =
      ["squeakytoy", "squeakytoy"] := by
  have hid : toyStoreId toySqueaky = "squeakytoy" := by decide
  have hid2 : toyStoreId (ToyItem.mk "Squeaky Toy" "squeaky" 20 10) =
      "squeakytoy" := hid
  have h1 : (buyToy toyPet toySqueaky).1 =
      { toyPet with coins := 20, toys := ["squeakytoy"], happiness := 50 } := by
    simp [buyToy, toyPet, toySqueaky, hid, hid2]
    norm_num
  have h2 : ¬ ((["squeakytoy"] : List String).contains "squeaky" = true) := by
    decide
  refine ⟨hid, rfl, ?_, ?_, ?_⟩
  · rw [h1]
  · rw [h1]
    simp [buyToy, toySqueaky, toyPet, h2]
  · rw [h1]
    simp [buyToy, toySqueaky, toyPet, h2, hid, hid2]

/-- **C10.** Every successful adoption (validation passed) creates the pet in
exactly the documented initial state — stage egg, the four need stats at 50,
health 100, experience 0, coins 50, no insurance, zero days alive, empty
achievements, tricks and toys — and first deletes every pre-existing pet and
all of that pet's Expense records. -/
theorem adoption_initial_state (s : Store) (newId : ℕ)
    (name species color : String) (hv : validatePetName name = none) :
    ∃ s2, handleAdopt s newId name species color = some s2 ∧
      s2.pets = [newPetRecord newId name species color] ∧
      (newPetRecord newId name species color).stage = "egg" ∧
      (newPetRecord newId name species color).hunger = 50 ∧
      (newPetRecord newId name species color).happiness = 50 ∧
      (newPetRecord newId name species color).energy = 50 ∧
      (newPetRecord newId name species color).hygiene = 50 ∧
      (newPetRecord newId name species color).health = 100 ∧
      (newPetRecord newId name species color).experience = 0 ∧
      (newPetRecord newId name species color).coins = 50 ∧
      (newPetRecord newId name species color).has_insurance = false ∧
      (newPetRecord newId name species color).days_alive = 0 ∧
      (newPetRecord newId name species color).achievements = [] ∧
      (newPetRecord newId name species color).tricks = [] ∧
      (newPetRecord newId name species color).toys = [] ∧
      (∀ e ∈ s2.expenses, ∀ q ∈ s.pets, e.pet_id ≠ q.id) := by
  have hs : handleAdopt s newId name species color =
      some { pets := [newPetRecord newId name species color]
             expenses := s.expenses.filter
               (fun e => !(s.pets.any (fun p => p.id == e.pet_id))) } := by
    unfold handleAdopt
    rw [hv]
  refine ⟨_, hs, rfl, rfl, rfl, rfl, rfl, rfl, rfl, rfl, rfl, rfl, rfl, rfl,
    rfl, rfl, ?_⟩
  intro e he q hq heq
  simp only [List.mem_filter, Bool.not_eq_true', List.any_eq_false,
    beq_iff_eq] at he
  exact he.2 q hq (heq.symm)

/-- Witness for C10 at a concrete input: adopting a dragon named Rex over a
store holding one pet and its expenses yields exactly the fresh pet and no
expense of the deleted pet survives. -/
theorem adoption_initial_state_witness :
    ∃ s2, handleAdopt exStore 7 "Rex" "dragon" "default" = some s2 ∧
      s2.pets = [newPetRecord 7 "Rex" "dragon" "default"] := by
  obtain ⟨s2, h1, h2, -⟩ :=
    adoption_initial_state exStore 7 "Rex" "dragon" "default" (by decide)
  exact ⟨s2, h1, h2⟩

end PetCareApp
